import Mathlib

/-!
# Verification of the `dim` dimensional-analysis expression evaluator

The repository exposes its engine through `src/dim.h` (`dim_eval`,
`dim_define`, `dim_clear`, `dim_clear_all`, `dim_free`, `dim_alloc`).
The engine itself (lexer, parser, unit registry, quantity algebra,
evaluator, constant table, formatter) is not part of the visible sources,
so it is modelled here from the specification.  Magnitudes are modelled
as exact rationals (`ℚ`); the spec prescribes IEEE doubles, but every
numeric computation exercised by the claims below (decimal literals,
`+`, `*` by small integers, exact quotients) is exact in both systems,
so the two agree on all the values that appear in the theorems.
-/

namespace Dim

/-- Modelled from the spec: `DimensionVector` — fixed-size ordered tuple of
rational exponents, one per base dimension (length, mass, time, electric
current, temperature, amount of substance, luminous intensity).  The
all-zero vector denotes a dimensionless quantity; two vectors are equal
iff all component exponents are equal. -/
structure DimVec where
  length : ℚ
  mass : ℚ
  time : ℚ
  current : ℚ
  temperature : ℚ
  amount : ℚ
  luminous : ℚ
deriving DecidableEq, Repr

namespace DimVec

def zero : DimVec := ⟨0, 0, 0, 0, 0, 0, 0⟩

/-- Componentwise sum (dimension of a product). -/
def add (a b : DimVec) : DimVec :=
  ⟨a.length + b.length, a.mass + b.mass, a.time + b.time, a.current + b.current,
   a.temperature + b.temperature, a.amount + b.amount, a.luminous + b.luminous⟩

/-- Componentwise difference, left minus right (dimension of a quotient). -/
def sub (a b : DimVec) : DimVec :=
  ⟨a.length - b.length, a.mass - b.mass, a.time - b.time, a.current - b.current,
   a.temperature - b.temperature, a.amount - b.amount, a.luminous - b.luminous⟩

/-- Every exponent multiplied by a rational scalar (dimension of a power). -/
def smul (e : ℚ) (a : DimVec) : DimVec :=
  ⟨e * a.length, e * a.mass, e * a.time, e * a.current,
   e * a.temperature, e * a.amount, e * a.luminous⟩

end DimVec

/-- Modelled from the spec: `Quantity` — a numeric magnitude paired with a
`DimensionVector` expressed in canonical base-unit terms. -/
structure Quantity where
  mag : ℚ
  dim : DimVec
deriving DecidableEq, Repr

/-- Modelled from the spec: the error taxonomy of §7 — `LexError`,
`ParseError`, `UndefinedConstant`, `UnknownFunction`, `DimensionMismatch`,
`DivisionByZero`, `IrrationalDimension`, `CyclicDefinition`. -/
inductive EvalError where
  | lexError (pos : Nat) (msg : String)
  | parseError (pos : Nat) (expected : String) (found : String)
  | undefinedConstant (name : String)
  | unknownFunction (name : String)
  | dimensionMismatch (left : DimVec) (right : DimVec)
  | divisionByZero
  | irrationalDimension
  | cyclicDefinition (name : String)
deriving DecidableEq, Repr

/-- Modelled from the spec: each failure class maps to a distinct non-zero
status code; status 0 is reserved for success. -/
def statusCode : EvalError → Int
  | .lexError _ _ => 1
  | .parseError _ _ _ => 2
  | .undefinedConstant _ => 3
  | .unknownFunction _ => 4
  | .dimensionMismatch _ _ => 5
  | .divisionByZero => 6
  | .irrationalDimension => 7
  | .cyclicDefinition _ => 8

/-! ## Unit / Dimension Registry (§4.3)

Static table mapping unit symbols to (base-dimension vector, scale factor
relative to the canonical base unit), with metric prefixes composed at
lookup time (`km` = prefix `k` × base unit `m`).  A direct symbol hit
takes precedence over a prefix decomposition. -/

def dimLength : DimVec := ⟨1, 0, 0, 0, 0, 0, 0⟩
def dimMass : DimVec := ⟨0, 1, 0, 0, 0, 0, 0⟩
def dimTime : DimVec := ⟨0, 0, 1, 0, 0, 0, 0⟩
def dimCurrent : DimVec := ⟨0, 0, 0, 1, 0, 0, 0⟩
def dimTemperature : DimVec := ⟨0, 0, 0, 0, 1, 0, 0⟩
def dimAmount : DimVec := ⟨0, 0, 0, 0, 0, 1, 0⟩
def dimLuminous : DimVec := ⟨0, 0, 0, 0, 0, 0, 1⟩

/-- Modelled from the spec: the SI base-unit rows of the registry.  The
canonical units are m, kg, s, A, K, mol, cd; the gram carries scale
1/1000 against the canonical kilogram. -/
def baseUnits : List (String × DimVec × ℚ) :=
  [("m", dimLength, 1),
   ("kg", dimMass, 1),
   ("g", dimMass, 1/1000),
   ("s", dimTime, 1),
   ("A", dimCurrent, 1),
   ("K", dimTemperature, 1),
   ("mol", dimAmount, 1),
   ("cd", dimLuminous, 1)]

/-- Modelled from the spec: metric-prefix multipliers. -/
def prefixes : List (String × ℚ) :=
  [("k", 1000), ("M", 1000000), ("G", 1000000000),
   ("c", 1/100), ("m", 1/1000), ("u", 1/1000000), ("n", 1/1000000000)]

def lookupBaseUnit (sym : String) : Option (DimVec × ℚ) :=
  (baseUnits.find? (fun row => row.1 = sym)).map (·.2)

/-- Modelled from the spec: `resolve(symbol) -> Option (DimensionVector,
scale)`; a direct table hit wins, otherwise a one-character metric prefix
composed with a base unit; an unknown symbol is not an error here. -/
def resolveUnit (sym : String) : Option (DimVec × ℚ) :=
  match lookupBaseUnit sym with
  | some r => some r
  | none =>
    match sym.data with
    | [] => none
    | p :: rest =>
      match prefixes.find? (fun row => row.1 = String.mk [p]) with
      | none => none
      | some (_, mult) =>
        match lookupBaseUnit (String.mk rest) with
        | none => none
        | some (d, sc) => some (d, mult * sc)

/-! ## Lexer (§4.1) -/

/-- Modelled from the spec: `Token` — numbers, identifiers, operators,
parentheses, and an explicit end marker.  Unit symbols are lexed as
identifiers; the parser and registry decide what an identifier means. -/
inductive Token where
  | number (value : ℚ)
  | ident (name : String)
  | plus
  | minus
  | star
  | slash
  | caret
  | lparen
  | rparen
  | «end»
deriving DecidableEq, Repr

/-- ASCII whitespace (space, tab, carriage return, newline). -/
def isWsChar (c : Char) : Bool :=
  c.toNat = 32 || c.toNat = 9 || c.toNat = 13 || c.toNat = 10

/-- ASCII decimal digit. -/
def isDigitChar (c : Char) : Bool := 48 ≤ c.toNat && c.toNat ≤ 57

/-- ASCII letter. -/
def isAlphaChar (c : Char) : Bool :=
  (65 ≤ c.toNat && c.toNat ≤ 90) || (97 ≤ c.toNat && c.toNat ≤ 122)

def isIdentChar (c : Char) : Bool := isAlphaChar c || isDigitChar c || c = '_'

def digitVal (c : Char) : Nat := c.toNat - '0'.toNat

def digitsToNat (ds : List Char) : Nat :=
  ds.foldl (fun acc c => 10 * acc + digitVal c) 0

/-- Numeric-literal scanner: integer digits, optional fractional part,
optional exponent (`1.5e3`).  A decimal point or exponent marker not
followed by a digit is a malformed number. -/
def scanNumber (cs : List Char) : Except EvalError (ℚ × List Char) := do
  let intDigits := cs.takeWhile isDigitChar
  let rest1 := cs.dropWhile isDigitChar
  let (fracDigits, rest2) ←
    match rest1 with
    | '.' :: tl =>
      let fd := tl.takeWhile isDigitChar
      if fd.isEmpty then
        .error (.lexError 0 "malformedNumber")
      else
        .ok (fd, tl.dropWhile isDigitChar)
    | _ => .ok (([] : List Char), rest1)
  let (expVal, rest3) ←
    match rest2 with
    | 'e' :: tl | 'E' :: tl =>
      let (sign, tl2) :=
        match tl with
        | '-' :: tl2 => ((-1 : Int), tl2)
        | '+' :: tl2 => ((1 : Int), tl2)
        | _ => ((1 : Int), tl)
      let ed := tl2.takeWhile isDigitChar
      if ed.isEmpty then
        .error (.lexError 0 "malformedNumber")
      else
        .ok (sign * (digitsToNat ed : Int), tl2.dropWhile isDigitChar)
    | _ => .ok ((0 : Int), rest2)
  let mantissa : ℚ :=
    (digitsToNat intDigits : ℚ) +
      (digitsToNat fracDigits : ℚ) / ((10 : ℚ) ^ fracDigits.length)
  .ok (mantissa * (10 : ℚ) ^ expVal, rest3)

/-- One lexing step per unit of fuel; fuel `length + 1` always suffices
because every step either finishes or consumes at least one character. -/
def lexToken (c : Char) (cs : List Char) (recur : List Char → Except EvalError (List Token)) :
    Except EvalError (List Token) :=
  if isWsChar c then recur cs
  else if isDigitChar c then do
    let (v, rest) ← scanNumber (c :: cs)
    let ts ← recur rest
    .ok (.number v :: ts)
  else if isAlphaChar c then
    (recur ((c :: cs).dropWhile isIdentChar)).map
      (fun ts => .ident (String.mk ((c :: cs).takeWhile isIdentChar)) :: ts)
  else if c = '+' then (recur cs).map (.plus :: ·)
  else if c = '-' then (recur cs).map (.minus :: ·)
  else if c = '*' then (recur cs).map (.star :: ·)
  else if c = '/' then (recur cs).map (.slash :: ·)
  else if c = '^' then (recur cs).map (.caret :: ·)
  else if c = '(' then (recur cs).map (.lparen :: ·)
  else if c = ')' then (recur cs).map (.rparen :: ·)
  else .error (.lexError 0 (String.mk ['u', 'n', 'e', 'x', 'p', 'e', 'c', 't', 'e', 'd', ' ', c]))

def lexLoop : Nat → List Char → Except EvalError (List Token)
  | _, [] => .ok [.end]
  | 0, _ :: _ => .error (.lexError 0 "outOfInput")
  | fuel + 1, c :: cs => lexToken c cs (lexLoop fuel)

/-- Modelled from the spec: `tokenize(text) -> sequence of Token`, ending
in the `End` marker; fails with a `LexError` on an unrecognized character
or malformed numeric literal. -/
def tokenize (s : String) : Except EvalError (List Token) :=
  lexLoop (s.data.length + 1) s.data

end Dim

namespace Dim

/-! ## Quantity Algebra (§4.4) -/

/-- Modelled from the spec: Add — requires `a.dimension == b.dimension`;
else fails `DimensionMismatch{left, right}`.  Result dimension unchanged;
magnitudes added directly (both already canonical). -/
def qadd (a b : Quantity) : Except EvalError Quantity :=
  if a.dim = b.dim then .ok ⟨a.mag + b.mag, a.dim⟩
  else .error (.dimensionMismatch a.dim b.dim)

/-- Modelled from the spec: Subtract — same dimension requirement as Add. -/
def qsub (a b : Quantity) : Except EvalError Quantity :=
  if a.dim = b.dim then .ok ⟨a.mag - b.mag, a.dim⟩
  else .error (.dimensionMismatch a.dim b.dim)

/-- Modelled from the spec: Multiply — result dimension = componentwise sum
of exponent vectors; magnitude = product. -/
def qmul (a b : Quantity) : Quantity := ⟨a.mag * b.mag, a.dim.add b.dim⟩

/-- Modelled from the spec: Divide — result dimension = componentwise
difference (left − right); magnitude = quotient; fails `DivisionByZero`
when the divisor magnitude is exactly zero. -/
def qdiv (a b : Quantity) : Except EvalError Quantity :=
  if b.mag = 0 then .error .divisionByZero
  else .ok ⟨a.mag / b.mag, a.dim.sub b.dim⟩

/-- Modelled from the spec: Power with a literal signed-integer exponent
(the grammar's `factor := unary ('^' signedInteger)?`); every exponent of
the base is multiplied by the exponent, which for an integer exponent is
always exactly representable.  (The spec also sketches small rational
literals like `^(1/2)`; those magnitudes are irrational in general and are
outside this model — no claim exercises them.) -/
def qpow (a : Quantity) (e : Int) : Quantity :=
  ⟨a.mag ^ e, a.dim.smul (e : ℚ)⟩

/-- Modelled from the spec: unary negate — magnitude negated, dimension
unchanged. -/
def qneg (a : Quantity) : Quantity := ⟨-a.mag, a.dim⟩

/-! ## Abstract syntax tree (§3, `AstNode`) -/

/-- Modelled from the spec: `AstNode` variants.  The builtin-function
`Call` variant is part of the taxonomy but the grammar of §4.2 exposes no
call syntax, so no parse produces it; it fails `UnknownFunction` unless a
builtin matches (the builtin set is closed and empty in this model). -/
inductive Ast where
  | lit (q : Quantity)
  | ident (name : String)
  | neg (a : Ast)
  | add (a b : Ast)
  | sub (a b : Ast)
  | mul (a b : Ast)
  | div (a b : Ast)
  | pow (a : Ast) (e : Int)
deriving DecidableEq, Repr

/-! ## Parser (§4.2)

Grammar, lowest to highest precedence:
`expr := term (('+' | '-') term)*`; `term := factor (('*' | '/') factor)*`;
`factor := unary ('^' signedInteger)?`; `unary := ('-')? atom`;
`atom := number unit? | identifier | '(' expr ')'`.
A unit directly following a numeric literal (optionally compound, e.g.
`m/s^2`) attaches dimension to the literal at parse time via the Unit
Registry; `^` is non-associative; `*`,`/`,`+`,`-` left-associative. -/

/-- A literal signed-integer exponent token sequence. -/
def parseSignedInt : List Token → Option (Int × List Token)
  | .number v :: rest => if v.den = 1 then some (v.num, rest) else none
  | .minus :: .number v :: rest => if v.den = 1 then some (-v.num, rest) else none
  | _ => none

/-- One compound-unit factor: a registry-resolvable identifier with an
optional integer exponent, yielding (dimension vector, scale factor). -/
def parseUnitFactor : List Token → Option ((DimVec × ℚ) × List Token)
  | .ident u :: rest =>
    match resolveUnit u with
    | none => none
    | some (d, sc) =>
      match rest with
      | .caret :: rest2 =>
        match parseSignedInt rest2 with
        | some (e, rest3) => some ((d.smul (e : ℚ), sc ^ e), rest3)
        | none => none
      | _ => some ((d, sc), rest)
  | _ => none

/-- Tail of a compound unit: keeps consuming `* unit` / `/ unit` as long
as the token after the operator resolves as a unit; otherwise stops and
leaves the operator for the expression level (so `10 m / 2 s` is a
quotient of quantities while `9.8 m/s^2` is one compound unit). -/
def parseUnitTail : Nat → (DimVec × ℚ) → List Token → (DimVec × ℚ) × List Token
  | 0, acc, ts => (acc, ts)
  | fuel + 1, acc, ts =>
    match ts with
    | .star :: rest =>
      match parseUnitFactor rest with
      | some (u, rest2) => parseUnitTail fuel (acc.1.add u.1, acc.2 * u.2) rest2
      | none => (acc, ts)
    | .slash :: rest =>
      match parseUnitFactor rest with
      | some (u, rest2) => parseUnitTail fuel (acc.1.sub u.1, acc.2 / u.2) rest2
      | none => (acc, ts)
    | _ => (acc, ts)

mutual

def parseExpr : Nat → List Token → Except EvalError (Ast × List Token)
  | 0, _ => .error (.parseError 0 "expression" "fuel exhausted")
  | fuel + 1, ts => do
    let (a, ts2) ← parseTerm fuel ts
    parseExprTail fuel a ts2

def parseExprTail : Nat → Ast → List Token → Except EvalError (Ast × List Token)
  | 0, _, _ => .error (.parseError 0 "expression" "fuel exhausted")
  | fuel + 1, a, ts =>
    match ts with
    | .plus :: rest => do
      let (b, ts2) ← parseTerm fuel rest
      parseExprTail fuel (.add a b) ts2
    | .minus :: rest => do
      let (b, ts2) ← parseTerm fuel rest
      parseExprTail fuel (.sub a b) ts2
    | _ => .ok (a, ts)

def parseTerm : Nat → List Token → Except EvalError (Ast × List Token)
  | 0, _ => .error (.parseError 0 "term" "fuel exhausted")
  | fuel + 1, ts => do
    let (a, ts2) ← parseFactor fuel ts
    parseTermTail fuel a ts2

def parseTermTail : Nat → Ast → List Token → Except EvalError (Ast × List Token)
  | 0, _, _ => .error (.parseError 0 "term" "fuel exhausted")
  | fuel + 1, a, ts =>
    match ts with
    | .star :: rest => do
      let (b, ts2) ← parseFactor fuel rest
      parseTermTail fuel (.mul a b) ts2
    | .slash :: rest => do
      let (b, ts2) ← parseFactor fuel rest
      parseTermTail fuel (.div a b) ts2
    | _ => .ok (a, ts)

def parseFactor : Nat → List Token → Except EvalError (Ast × List Token)
  | 0, _ => .error (.parseError 0 "factor" "fuel exhausted")
  | fuel + 1, ts => do
    let (a, ts2) ← parseUnary fuel ts
    match ts2 with
    | .caret :: rest =>
      match parseSignedInt rest with
      | some (e, rest2) => .ok (.pow a e, rest2)
      | none => .error (.parseError 0 "integer exponent" "other token")
    | _ => .ok (a, ts2)

def parseUnary : Nat → List Token → Except EvalError (Ast × List Token)
  | 0, _ => .error (.parseError 0 "unary" "fuel exhausted")
  | fuel + 1, ts =>
    match ts with
    | .minus :: rest => do
      let (a, ts2) ← parseAtom fuel rest
      .ok (.neg a, ts2)
    | _ => parseAtom fuel ts

def parseAtom : Nat → List Token → Except EvalError (Ast × List Token)
  | 0, _ => .error (.parseError 0 "atom" "fuel exhausted")
  | fuel + 1, ts =>
    match ts with
    | .number v :: rest =>
      match rest with
      | .ident u :: _ =>
        if (resolveUnit u).isSome then
          match parseUnitFactor rest with
          | some (uq, rest2) =>
            let (uq2, rest3) := parseUnitTail rest2.length uq rest2
            .ok (.lit ⟨v * uq2.2, uq2.1⟩, rest3)
          | none => .error (.parseError 0 "unit" "malformed unit exponent")
        else .ok (.lit ⟨v, DimVec.zero⟩, rest)
      | _ => .ok (.lit ⟨v, DimVec.zero⟩, rest)
    | .ident n :: rest => .ok (.ident n, rest)
    | .lparen :: rest => do
      let (a, ts2) ← parseExpr fuel rest
      match ts2 with
      | .rparen :: rest2 => .ok (a, rest2)
      | _ => .error (.parseError 0 "closing parenthesis" "other token")
    | _ => .error (.parseError 0 "atom" "unexpected token")

end

/-- Modelled from the spec: parse a complete token sequence to an AST;
trailing tokens after a complete expression are a `ParseError`.  Fuel
linear in the token count always suffices: every recursive descent level
either consumes a token or moves to a strictly higher-precedence
nonterminal. -/
def parse (ts : List Token) : Except EvalError Ast := do
  let (a, rest) ← parseExpr (6 * ts.length + 6) ts
  match rest with
  | [.end] => .ok a
  | _ => .error (.parseError 0 "end of input" "trailing tokens")

/-! ## Constant Table (§4.6) -/

/-- Modelled from the spec: `ConstantTable` — mapping from case-sensitive
name to Quantity, the one piece of mutable state shared across calls. -/
abbrev Table := List (String × Quantity)

def tblLookup : Table → String → Option Quantity
  | [], _ => none
  | p :: ts, n => if p.1 = n then some p.2 else tblLookup ts n

/-- Remove every entry named `n` (absent name: no entry matches, no-op). -/
def tblClear : Table → String → Table
  | [], _ => []
  | p :: ts, n => if p.1 = n then tblClear ts n else p :: tblClear ts n

/-- Insert or overwrite the entry named `n`. -/
def tblInsert (t : Table) (n : String) (q : Quantity) : Table :=
  (n, q) :: tblClear t n

/-! ## Evaluator (§4.5) -/

/-- Modelled from the spec: post-order walk of the AST.  Identifier
resolution consults the in-progress definition name first — during
`define`'s re-entrant evaluation the name being defined is rejected with
`CyclicDefinition` rather than looked up — then the Constant Table,
failing `UndefinedConstant` if absent.  Every error short-circuits the
remaining walk. -/
def evalAst (tbl : Table) (defining : Option String) : Ast → Except EvalError Quantity
  | .lit q => .ok q
  | .ident n =>
    if defining = some n then .error (.cyclicDefinition n)
    else
      match tblLookup tbl n with
      | some q => .ok q
      | none => .error (.undefinedConstant n)
  | .neg a => do
    let qa ← evalAst tbl defining a
    .ok (qneg qa)
  | .add a b => do
    let qa ← evalAst tbl defining a
    let qb ← evalAst tbl defining b
    qadd qa qb
  | .sub a b => do
    let qa ← evalAst tbl defining a
    let qb ← evalAst tbl defining b
    qsub qa qb
  | .mul a b => do
    let qa ← evalAst tbl defining a
    let qb ← evalAst tbl defining b
    .ok (qmul qa qb)
  | .div a b => do
    let qa ← evalAst tbl defining a
    let qb ← evalAst tbl defining b
    qdiv qa qb
  | .pow a e => do
    let qa ← evalAst tbl defining a
    .ok (qpow qa e)

end Dim

namespace Dim

/-! ## Formatter (§4.7) -/

def digitChar (n : Nat) : Char := Char.ofNat (48 + n)

def natDigits : Nat → Nat → List Char
  | 0, _ => []
  | fuel + 1, n =>
    if n < 10 then [digitChar n]
    else natDigits fuel (n / 10) ++ [digitChar (n % 10)]

def natToStr (n : Nat) : String := String.mk (natDigits (n + 1) n)

def intToStr (i : Int) : String :=
  if i < 0 then "-" ++ natToStr i.natAbs else natToStr i.natAbs

/-- Smallest `k ≤ bound` with `den ∣ 10^k`, if any. -/
def decExp (bound den : Nat) : Option Nat :=
  (List.range (bound + 1)).find? (fun k => 10 ^ k % den = 0)

/-- Decimal digit string of `num / den` scaled by `10^k`, with the point
placed `k` digits from the right. -/
def decimalString (num den k : Nat) : String :=
  let scaled := num * 10 ^ k / den
  let raw := natDigits (scaled + 1) scaled
  let padded := List.replicate (k + 1 - raw.length) '0' ++ raw
  if k = 0 then String.mk padded
  else String.mk (padded.take (padded.length - k) ++ '.' :: padded.drop (padded.length - k))

/-- Modelled from the spec: the magnitude is rendered in a fixed
shortest-round-trip decimal representation (exact terminating decimal for
these rational magnitudes; a non-terminating rational falls back to a
`num/den` rendering). -/
def formatMag (q : ℚ) : String :=
  let sign := if q < 0 then "-" else ""
  match decExp 40 q.den with
  | some k => sign ++ decimalString q.num.natAbs q.den k
  | none => sign ++ natToStr q.num.natAbs ++ "/" ++ natToStr q.den

def formatExp (e : ℚ) : String :=
  if e.den = 1 then intToStr e.num
  else "(" ++ intToStr e.num ++ "/" ++ natToStr e.den ++ ")"

def formatComp (sym : String) (e : ℚ) : String :=
  if e = 1 then sym else sym ++ "^" ++ formatExp e

def joinStar : List String → String
  | [] => ""
  | [s] => s
  | s :: rest => s ++ "*" ++ joinStar rest

/-- The (base-unit symbol, exponent) components of a dimension vector. -/
def dimComponents (d : DimVec) : List (String × ℚ) :=
  [("m", d.length), ("kg", d.mass), ("s", d.time), ("A", d.current),
   ("K", d.temperature), ("mol", d.amount), ("cd", d.luminous)]

/-- Modelled from the spec: canonical compound form — base-unit symbols
raised to their vector exponents, zero exponents omitted, numerator
symbols joined by `*`, a single division separating the numerator from
the units whose exponents are negative. -/
def formatDimVec (d : DimVec) : String :=
  let comps := dimComponents d
  let pos := (comps.filter (fun p => 0 < p.2)).map (fun p => formatComp p.1 p.2)
  let neg := (comps.filter (fun p => p.2 < 0)).map (fun p => formatComp p.1 (-p.2))
  let numer := if pos.isEmpty then "1" else joinStar pos
  if neg.isEmpty then numer else numer ++ "/" ++ joinStar neg

/-- Modelled from the spec: render `"<magnitude> <unitExpression>"`,
preferring the single registry unit whose DimensionVector exactly matches
(displayed in that unit's scale) over a compound expression; a
dimensionless result renders as just the magnitude. -/
def formatQuantity (q : Quantity) : String :=
  if q.dim = DimVec.zero then formatMag q.mag
  else
    match baseUnits.find? (fun row => row.2.1 = q.dim) with
    | some (sym, _, sc) => formatMag (q.mag / sc) ++ " " ++ sym
    | none => formatMag q.mag ++ " " ++ formatDimVec q.dim

/-- Modelled from the spec: every failure carries human-readable message
text. -/
def renderError : EvalError → String
  | .lexError _ m => "lex error: " ++ m
  | .parseError _ exp fnd => "parse error: expected " ++ exp ++ ", found " ++ fnd
  | .undefinedConstant n => "undefined constant: " ++ n
  | .unknownFunction n => "unknown function: " ++ n
  | .dimensionMismatch _ _ => "dimension mismatch in add/subtract"
  | .divisionByZero => "division by zero"
  | .irrationalDimension => "irrational dimension exponent"
  | .cyclicDefinition n => "cyclic definition: " ++ n

/-! ## Boundary operations (§6, `src/dim.h`) -/

/-- The full pipeline behind `dim_eval`: tokenize, parse, evaluate against
the Constant Table. -/
def evalEngine (tbl : Table) (s : String) : Except EvalError Quantity := do
  let ts ← tokenize s
  let a ← parse ts
  evalAst tbl none a

/-- Modelled from the spec and `src/dim.h` `dim_eval`: status 0 on success
with the formatted Quantity string as the result bytes; a non-zero status
on any failure, with the result bytes holding a human-readable error
message.  The byte buffers of the C boundary are modelled as `String`,
the `int32_t` status as `Int`. -/
def dim_eval (s : String) (tbl : Table) : Int × String :=
  match evalEngine tbl s with
  | .ok q => (0, formatQuantity q)
  | .error e => (statusCode e, renderError e)

/-- The engine half of `define`: evaluate the expression fully against the
current table (with the name being defined tracked as in-progress), and
only then commit the insert/overwrite. -/
def defineEngine (name : String) (expr : String) (tbl : Table) : Except EvalError Table := do
  let ts ← tokenize expr
  let a ← parse ts
  let q ← evalAst tbl (some name) a
  .ok (tblInsert tbl name q)

/-- Modelled from the spec and `src/dim.h` `dim_define`: returns the
status code and the resulting Constant Table state (0 and the updated
table on success; the error's non-zero status and the unchanged table on
failure). -/
def dim_define (name expr : String) (tbl : Table) : Int × Table :=
  match defineEngine name expr tbl with
  | .ok t => (0, t)
  | .error e => (statusCode e, tbl)

/-- Modelled from the spec and `src/dim.h` `dim_clear`: removes the named
entry if present; unconditional, no status. -/
def dim_clear (name : String) (tbl : Table) : Table := tblClear tbl name

/-- Modelled from the spec and `src/dim.h` `dim_clear_all`: empties the
table unconditionally. -/
def dim_clear_all (_tbl : Table) : Table := []


end Dim

namespace Dim

def validIdentB (s : String) : Bool :=
  match s.data with
  | [] => false
  | c :: cs => isAlphaChar c && (c :: cs).all isIdentChar

theorem lexLoop_nil (fuel : Nat) : lexLoop fuel [] = .ok [.end] := by
  cases fuel <;> rfl

theorem lexLoop_cons (fuel : Nat) (c : Char) (cs : List Char) :
    lexLoop (fuel + 1) (c :: cs) = lexToken c cs (lexLoop fuel) := rfl

theorem isWsChar_of_alpha {c : Char} (h : isAlphaChar c = true) : isWsChar c = false := by
  simp only [isAlphaChar, isWsChar, Bool.or_eq_true, Bool.and_eq_true,
    decide_eq_true_eq, Bool.or_eq_false_iff, decide_eq_false_iff_not] at h ⊢
  omega

theorem isDigitChar_of_alpha {c : Char} (h : isAlphaChar c = true) : isDigitChar c = false := by
  simp only [isAlphaChar, isDigitChar, Bool.or_eq_true, Bool.and_eq_true,
    decide_eq_true_eq, Bool.and_eq_false_iff, decide_eq_false_iff_not] at h ⊢
  omega

theorem takeWhile_of_all {p : Char → Bool} (l : List Char) (h : ∀ c ∈ l, p c = true) :
    l.takeWhile p = l := by
  induction l with
  | nil => rfl
  | cons c cs ih =>
    have hc := h c (List.mem_cons_self c cs)
    have ht := ih (fun x hx => h x (List.mem_cons_of_mem c hx))
    simp [List.takeWhile_cons, hc, ht]

theorem dropWhile_of_all {p : Char → Bool} (l : List Char) (h : ∀ c ∈ l, p c = true) :
    l.dropWhile p = [] := by
  induction l with
  | nil => rfl
  | cons c cs ih =>
    have hc := h c (List.mem_cons_self c cs)
    have ht := ih (fun x hx => h x (List.mem_cons_of_mem c hx))
    simp [List.dropWhile_cons, hc, ht]

theorem lexIdent (n : String) (h : validIdentB n = true) :
    tokenize n = .ok [.ident n, .end] := by
  obtain ⟨data⟩ := n
  cases data with
  | nil => simp [validIdentB] at h
  | cons c cs =>
    simp only [validIdentB, Bool.and_eq_true, List.all_eq_true] at h
    obtain ⟨halpha, hall⟩ := h
    show lexLoop ((c :: cs).length + 1) (c :: cs) = _
    rw [show (c :: cs).length + 1 = (cs.length + 1) + 1 from rfl]
    rw [lexLoop_cons]
    unfold lexToken
    rw [isWsChar_of_alpha halpha, isDigitChar_of_alpha halpha]
    simp only [Bool.false_eq_true, if_false, halpha, if_true]
    rw [takeWhile_of_all _ hall, dropWhile_of_all _ hall, lexLoop_nil]
    rfl

theorem parse_single_ident (n : String) :
    parse [.ident n, .end] = .ok (.ident n) := rfl

theorem evalEngine_ident (n : String) (tbl : Table) (hv : validIdentB n = true)
    (hl : tblLookup tbl n = none) :
    evalEngine tbl n = .error (.undefinedConstant n) := by
  unfold evalEngine
  rw [lexIdent n hv]
  show (parse [.ident n, .end] >>= fun a => evalAst tbl none a) = _
  rw [parse_single_ident]
  show evalAst tbl none (.ident n) = _
  unfold evalAst
  rw [if_neg (by simp), hl]

theorem dim_eval_undefined (n : String) (tbl : Table) (hv : validIdentB n = true)
    (hl : tblLookup tbl n = none) :
    dim_eval n tbl = (statusCode (.undefinedConstant n), renderError (.undefinedConstant n)) := by
  unfold dim_eval
  rw [evalEngine_ident n tbl hv hl]

theorem tblLookup_clear (tbl : Table) (n : String) : tblLookup (tblClear tbl n) n = none := by
  induction tbl with
  | nil => rfl
  | cons p ts ih =>
    by_cases hp : p.1 = n
    · simpa [tblClear, hp] using ih
    · simpa [tblClear, tblLookup, hp] using ih

theorem tblClear_noop (tbl : Table) (n : String) (h : tblLookup tbl n = none) :
    tblClear tbl n = tbl := by
  induction tbl with
  | nil => rfl
  | cons p ts ih =>
    by_cases hp : p.1 = n
    · simp [tblLookup, hp] at h
    · simp only [tblLookup, hp, if_false] at h
      simp [tblClear, hp, ih h]

theorem tblClear_idem (tbl : Table) (n : String) :
    tblClear (tblClear tbl n) n = tblClear tbl n := by
  induction tbl with
  | nil => rfl
  | cons p ts ih =>
    by_cases hp : p.1 = n
    · simp [tblClear, hp, ih]
    · simp [tblClear, hp, ih]

end Dim

namespace Dim

theorem append_length_pos (p s : String) (h : 0 < p.length) : 0 < (p ++ s).length := by
  rw [String.length_append]
  omega

theorem statusCode_ne_zero (e : EvalError) : statusCode e ≠ 0 := by
  cases e <;> simp only [statusCode] <;> omega

theorem renderError_length_pos (e : EvalError) : 0 < (renderError e).length := by
  cases e <;> · simp only [renderError]; repeat first | apply append_length_pos | decide

/-- C1: `dim_eval "1 m + 1 m"` returns status 0 with `"2 m"`; `dim_eval
"1 m + 1 kg"` returns the non-zero `DimensionMismatch` status, because
addition and subtraction require equal dimension vectors and otherwise
fail with `DimensionMismatch`. -/
theorem add_same_dimension_ok_mismatch_fails :
    dim_eval "1 m + 1 m" [] = (0, "2 m") ∧
    dim_eval "1 m + 1 kg" [] =
      (statusCode (.dimensionMismatch dimLength dimMass),
       renderError (.dimensionMismatch dimLength dimMass)) ∧
    statusCode (.dimensionMismatch dimLength dimMass) ≠ 0 ∧
    (∀ a b : Quantity, a.dim = b.dim →
      qadd a b = .ok ⟨a.mag + b.mag, a.dim⟩ ∧ qsub a b = .ok ⟨a.mag - b.mag, a.dim⟩) ∧
    (∀ a b : Quantity, a.dim ≠ b.dim →
      qadd a b = .error (.dimensionMismatch a.dim b.dim) ∧
      qsub a b = .error (.dimensionMismatch a.dim b.dim)) := by
  refine ⟨by with_unfolding_all decide, by with_unfolding_all decide, by decide, ?_, ?_⟩
  · intro a b h
    exact ⟨by simp [qadd, h], by simp [qsub, h]⟩
  · intro a b h
    exact ⟨by simp [qadd, h], by simp [qsub, h]⟩

theorem add_same_dimension_ok_mismatch_fails_witness :
    qadd ⟨1, dimLength⟩ ⟨1, dimLength⟩ = .ok ⟨(1 : ℚ) + 1, dimLength⟩ ∧
    qadd ⟨1, dimLength⟩ ⟨1, dimMass⟩ = .error (.dimensionMismatch dimLength dimMass) :=
  ⟨(add_same_dimension_ok_mismatch_fails.2.2.2.1 ⟨1, dimLength⟩ ⟨1, dimLength⟩ rfl).1,
   (add_same_dimension_ok_mismatch_fails.2.2.2.2 ⟨1, dimLength⟩ ⟨1, dimMass⟩
     (by with_unfolding_all decide)).1⟩

/-- C2: after `dim_define "g" "9.8 m/s^2"` succeeds with status 0, a
subsequent `dim_eval "g * 2"` returns status 0 with `"19.6 m/s^2"`:
identifiers resolve against the Constant Table populated by earlier
defines. -/
theorem define_then_eval_resolves_constant :
    (dim_define "g" "9.8 m/s^2" []).1 = 0 ∧
    dim_eval "g * 2" (dim_define "g" "9.8 m/s^2" []).2 = (0, "19.6 m/s^2") :=
  ⟨by with_unfolding_all decide, by with_unfolding_all decide⟩

/-- C3: a failing `dim_define` leaves the Constant Table exactly as it was
before the call. -/
theorem failing_define_leaves_table_unchanged (name expr : String) (tbl : Table)
    (h : (dim_define name expr tbl).1 ≠ 0) :
    (dim_define name expr tbl).2 = tbl := by
  cases hE : defineEngine name expr tbl with
  | ok t =>
    have h0 : dim_define name expr tbl = (0, t) := by unfold dim_define; rw [hE]
    rw [h0] at h
    simp at h
  | error e =>
    have h0 : dim_define name expr tbl = (statusCode e, tbl) := by unfold dim_define; rw [hE]
    rw [h0]

theorem failing_define_leaves_table_unchanged_witness :
    (dim_define "x" "x + 1" []).2 = ([] : Table) :=
  failing_define_leaves_table_unchanged "x" "x + 1" [] (by with_unfolding_all decide)

/-- C4: `dim_define "x" "x + 1"` fails with `CyclicDefinition` for every
prior table state: while evaluating a definition's expression, a reference
to the name being defined is rejected rather than looked up. -/
theorem self_referential_define_fails_cyclic (tbl : Table) :
    dim_define "x" "x + 1" tbl = (statusCode (.cyclicDefinition "x"), tbl) := rfl

/-- C5: `dim_clear` removes the named entry so a subsequent `dim_eval` of
the name fails `UndefinedConstant`; clearing an absent name is a silent
no-op; clearing twice equals clearing once. -/
theorem clear_removes_noop_idempotent (tbl : Table) (n : String) :
    tblLookup (dim_clear n tbl) n = none ∧
    (tblLookup tbl n = none → dim_clear n tbl = tbl) ∧
    dim_clear n (dim_clear n tbl) = dim_clear n tbl ∧
    (validIdentB n = true →
      dim_eval n (dim_clear n tbl) =
        (statusCode (.undefinedConstant n), renderError (.undefinedConstant n))) := by
  refine ⟨tblLookup_clear tbl n, tblClear_noop tbl n, tblClear_idem tbl n, fun hv => ?_⟩
  exact dim_eval_undefined n _ hv (tblLookup_clear tbl n)

theorem clear_removes_noop_idempotent_witness :
    dim_clear "q" ([] : Table) = ([] : Table) ∧
    dim_eval "g" (dim_clear "g" [("g", ⟨1, dimMass⟩)]) =
      (statusCode (.undefinedConstant "g"), renderError (.undefinedConstant "g")) :=
  ⟨(clear_removes_noop_idempotent [] "q").2.1 rfl,
   (clear_removes_noop_idempotent [("g", ⟨1, dimMass⟩)] "g").2.2.2 (by decide)⟩

/-- C6: `dim_clear_all` unconditionally empties the Constant Table: every
name looks up to nothing afterwards, and evaluating any previously defined
name fails `UndefinedConstant`. -/
theorem clear_all_empties_table (tbl : Table) (n : String) :
    tblLookup (dim_clear_all tbl) n = none ∧
    (validIdentB n = true →
      dim_eval n (dim_clear_all tbl) =
        (statusCode (.undefinedConstant n), renderError (.undefinedConstant n))) :=
  ⟨rfl, fun hv => dim_eval_undefined n _ hv rfl⟩

theorem clear_all_empties_table_witness :
    tblLookup (dim_clear_all [("g", ⟨1, dimMass⟩)]) "g" = none ∧
    dim_eval "g" (dim_clear_all [("g", ⟨1, dimMass⟩)]) =
      (statusCode (.undefinedConstant "g"), renderError (.undefinedConstant "g")) :=
  ⟨(clear_all_empties_table [("g", ⟨1, dimMass⟩)] "g").1,
   (clear_all_empties_table [("g", ⟨1, dimMass⟩)] "g").2 (by decide)⟩

/-- C7: quantity division fails `DivisionByZero` exactly when the divisor
magnitude is exactly zero; a non-failing division has dimension equal to
the componentwise difference (left − right) and magnitude equal to the
quotient. -/
theorem division_fails_iff_zero_divisor (a b : Quantity) :
    (qdiv a b = .error .divisionByZero ↔ b.mag = 0) ∧
    (b.mag ≠ 0 → qdiv a b = .ok ⟨a.mag / b.mag, a.dim.sub b.dim⟩) ∧
    dim_eval "1 / 0" [] = (statusCode .divisionByZero, renderError .divisionByZero) := by
  refine ⟨?_, fun h => by simp [qdiv, h], by with_unfolding_all decide⟩
  by_cases h : b.mag = 0
  · simp [qdiv, h]
  · simp [qdiv, h]

theorem division_fails_iff_zero_divisor_witness :
    qdiv ⟨10, dimLength⟩ ⟨2, dimTime⟩ = .ok ⟨(10 : ℚ) / 2, dimLength.sub dimTime⟩ :=
  (division_fails_iff_zero_divisor ⟨10, dimLength⟩ ⟨2, dimTime⟩).2.1
    (by with_unfolding_all decide)

/-- C8: `dim_eval` is deterministic — two calls on the same expression with
identical Constant Table state return the same status and result bytes. -/
theorem eval_deterministic (e : String) (t₁ t₂ : Table) (h : t₁ = t₂) :
    dim_eval e t₁ = dim_eval e t₂ := by rw [h]

theorem eval_deterministic_witness :
    dim_eval "1 m + 1 m" [] = dim_eval "1 m + 1 m" [] :=
  eval_deterministic "1 m + 1 m" [] [] rfl

/-- C9: every failure is surfaced synchronously as a non-zero status code
plus human-readable message text; in particular a failing `dim_define`
returns the failure's non-zero status code, and the failure carries a
nonempty message. -/
theorem failures_surface_status_and_message :
    (∀ e : EvalError, statusCode e ≠ 0 ∧ 0 < (renderError e).length) ∧
    (∀ s tbl err, evalEngine tbl s = .error err →
      dim_eval s tbl = (statusCode err, renderError err)) ∧
    (∀ n s tbl err, defineEngine n s tbl = .error err →
      (dim_define n s tbl).1 = statusCode err ∧ (dim_define n s tbl).1 ≠ 0) := by
  refine ⟨fun e => ⟨statusCode_ne_zero e, renderError_length_pos e⟩,
    fun s tbl err hE => ?_, fun n s tbl err hE => ?_⟩
  · unfold dim_eval
    rw [hE]
  · have h0 : dim_define n s tbl = (statusCode err, tbl) := by unfold dim_define; rw [hE]
    rw [h0]
    exact ⟨rfl, statusCode_ne_zero err⟩

theorem failures_surface_status_and_message_witness :
    dim_eval "g" [] = (statusCode (.undefinedConstant "g"), renderError (.undefinedConstant "g")) ∧
    (dim_define "x" "x + 1" []).1 = statusCode (.cyclicDefinition "x") ∧
    (dim_define "x" "x + 1" []).1 ≠ 0 :=
  ⟨failures_surface_status_and_message.2.1 "g" [] (.undefinedConstant "g")
     (by with_unfolding_all rfl),
   failures_surface_status_and_message.2.2 "x" "x + 1" [] (.cyclicDefinition "x")
     (by with_unfolding_all rfl)⟩

/-- C10: on empty input `dim_eval` returns a non-zero parse-failure status,
never status 0, regardless of the Constant Table. -/
theorem empty_input_is_parse_error (tbl : Table) :
    dim_eval "" tbl =
      (statusCode (.parseError 0 "atom" "unexpected token"),
       renderError (.parseError 0 "atom" "unexpected token")) ∧
    (dim_eval "" tbl).1 ≠ 0 :=
  ⟨rfl, by show (2 : Int) ≠ 0; decide⟩

end Dim
